import Mathlib

/-! A shallow embedding of the game/move coordination layer of a browser 3D
chess front-end: the engine session adapter (src/chess/engine.ts), the rules
helpers (src/chess/logic.ts) and the coordinating handlers of App.tsx (square
clicks, undo, persistence restore, URL difficulty override, and the engine
best-move message handler).  The chess rules library (chess.js) is an external
collaborator: it is embedded as an interface record (`Rules`) whose operations
mirror exactly the calls the source makes, and the mutable `Chess` objects of
the source are embedded by explicit state passing (an operation that mutates
an object returns the object's next state; a throwing operation returns
`none`). -/

set_option autoImplicit false

/-- Side / piece color, the source's 'w' | 'b'. -/
inductive PieceColor
  | w
  | b
deriving DecidableEq, Repr

/-- The {from, to} pair with which `Engine.getBestMove` resolves. -/
structure MoveXY where
  fromSq : String
  toSq : String
deriving DecidableEq, Repr

/-- A candidate move request {from, to, promotion} as passed to
`validateMove` and `chess.move` by App.tsx (promotion is always 'q' there). -/
structure MoveReq where
  fromSq : String
  toSq : String
  promotion : Char
deriving DecidableEq, Repr

/-- The interface of the external Rules Collaborator (chess.js) exactly as the
source consumes it.  A mutable `Chess` object is a value of `G`; operations
that mutate return the next value; constructors and moves that throw return
`none`.  `moveReq` is `game.move({from,to,promotion})` (the resulting SAN
string and the mutated game, or `none` when chess.js throws for an illegal
move); `moveStr` is `game.move(string)` on a SAN/LAN string. -/
structure Rules (G : Type) where
  initial : G
  fromFen : String → Option G
  fen : G → String
  turn : G → PieceColor
  isCheckmate : G → Bool
  isDraw : G → Bool
  isCheck : G → Bool
  isGameOver : G → Bool
  pieceColorAt : G → String → Option PieceColor
  movesFrom : G → String → List String
  moveReq : G → MoveReq → Option (String × G)
  moveStr : G → String → Option (String × G)

/-- logic.ts: `INITIAL_FEN`. -/
def INITIAL_FEN : String := "rnbqkbnr/pppppppp/8/8/8/8/PPPPPPPP/RNBQKBNR w KQkq - 0 1"

variable {G : Type}

/-- logic.ts `validateMove(game, move)`: legality is checked on a copy
(`new Chess(game.fen())` followed by `gameCopy.move(move)` inside try/catch);
the pair returned is (the call's JS return value, the state of the caller's
`game` object after the call).  The input game is never passed to a mutating
operation, so the second component is the unchanged input. -/
def validateMove (r : Rules G) (g : G) (mv : MoveReq) : Option String × G :=
  match (r.fromFen (r.fen g)).bind (fun gameCopy => r.moveReq gameCopy mv) with
  | some (san, _) => (some san, g)
  | none => (none, g)

/-- logic.ts `getStatus(game, playerColor, isTwoPlayer)`, with the source's
literal strings. -/
def getStatus (r : Rules G) (g : G) (playerColor : PieceColor) (isTwoPlayer : Bool) : String :=
  if r.isCheckmate g then
    "Checkmate! " ++ (if r.turn g = PieceColor.w then "Black" else "White") ++ " wins."
  else if r.isDraw g then
    "Draw!"
  else if r.isCheck g then
    "Check!"
  else if isTwoPlayer then
    (if r.turn g = PieceColor.w then "White" else "Black") ++ "\'s turn"
  else if r.turn g = playerColor then
    "Your turn (" ++ (if playerColor = PieceColor.w then "White" else "Black") ++ ")"
  else
    "Computer is thinking..."

/-- A tiny concrete Rules Collaborator instance: the opening 1. e4 e5 2. Nf3
fragment of chess, recording chess.js's observable behaviour on exactly the
positions the concrete scenarios below visit. -/
inductive TGame
  | pos0
  | pos1
  | pos2
  | pos3
deriving DecidableEq, Repr

/-- FEN of each toy position (pos0 initial, pos1 after 1.e4, pos2 after
1.e4 e5, pos3 after 2.Nf3). -/
def tFen : TGame → String
  | TGame.pos0 => INITIAL_FEN
  | TGame.pos1 => "rnbqkbnr/pppppppp/8/8/4P3/8/PPPP1PPP/RNBQKBNR b KQkq e3 0 1"
  | TGame.pos2 => "rnbqkbnr/pppp1ppp/8/4p3/4P3/8/PPPP1PPP/RNBQKBNR w KQkq e6 0 2"
  | TGame.pos3 => "rnbqkbnr/pppp1ppp/8/4p3/4P3/5N2/PPPP1PPP/RNBQKB1R b KQkq - 1 2"

/-- Toy `new Chess(fen)`: succeeds exactly on the four known FENs. -/
def tFromFen (s : String) : Option TGame :=
  if s = tFen TGame.pos0 then some TGame.pos0
  else if s = tFen TGame.pos1 then some TGame.pos1
  else if s = tFen TGame.pos2 then some TGame.pos2
  else if s = tFen TGame.pos3 then some TGame.pos3
  else none

/-- Toy side to move. -/
def tTurn : TGame → PieceColor
  | TGame.pos0 => PieceColor.w
  | TGame.pos1 => PieceColor.b
  | TGame.pos2 => PieceColor.w
  | TGame.pos3 => PieceColor.b

/-- Toy `game.move(string)`: accepts the SAN and the permissive LAN spelling
chess.js accepts for the three played moves. -/
def tMoveStr : TGame → String → Option (String × TGame)
  | TGame.pos0, "e4" => some ("e4", TGame.pos1)
  | TGame.pos0, "e2e4" => some ("e4", TGame.pos1)
  | TGame.pos1, "e5" => some ("e5", TGame.pos2)
  | TGame.pos1, "e7e5" => some ("e5", TGame.pos2)
  | TGame.pos2, "Nf3" => some ("Nf3", TGame.pos3)
  | TGame.pos2, "g1f3" => some ("Nf3", TGame.pos3)
  | _, _ => none

/-- Toy `game.move({from,to,promotion})`. -/
def tMoveReq : TGame → MoveReq → Option (String × TGame)
  | TGame.pos0, ⟨"e2", "e4", _⟩ => some ("e4", TGame.pos1)
  | TGame.pos1, ⟨"e7", "e5", _⟩ => some ("e5", TGame.pos2)
  | TGame.pos2, ⟨"g1", "f3", _⟩ => some ("Nf3", TGame.pos3)
  | _, _ => none

/-- Toy `game.get(square).color`. -/
def tPieceColorAt : TGame → String → Option PieceColor
  | TGame.pos0, "e2" => some PieceColor.w
  | TGame.pos0, "e7" => some PieceColor.b
  | TGame.pos1, "e7" => some PieceColor.b
  | _, _ => none

/-- Toy `game.moves({square, verbose}).map(m.to)`. -/
def tMovesFrom : TGame → String → List String
  | TGame.pos0, "e2" => ["e3", "e4"]
  | TGame.pos1, "e7" => ["e6", "e5"]
  | _, _ => []

/-- The toy Rules Collaborator (no terminal position is reached in the
fragment, so the terminal predicates are false). -/
def toy : Rules TGame :=
  { initial := TGame.pos0
    fromFen := tFromFen
    fen := tFen
    turn := tTurn
    isCheckmate := fun _ => false
    isDraw := fun _ => false
    isCheck := fun _ => false
    isGameOver := fun _ => false
    pieceColorAt := tPieceColorAt
    movesFrom := tMovesFrom
    moveReq := tMoveReq
    moveStr := tMoveStr }

/-- A Rules instance on a one-point game type whose terminal predicates all
hold at once; it exercises the precedence branches of `getStatus` on a
position that is simultaneously checkmate, draw and check. -/
def overlap : Rules Unit :=
  { initial := ()
    fromFen := fun _ => some ()
    fen := fun _ => "overlap"
    turn := fun _ => PieceColor.b
    isCheckmate := fun _ => true
    isDraw := fun _ => true
    isCheck := fun _ => true
    isGameOver := fun _ => true
    pieceColorAt := fun _ _ => none
    movesFrom := fun _ _ => []
    moveReq := fun _ _ => none
    moveStr := fun _ _ => none }

/-- The React state of App.tsx that the coordination layer reads and writes:
the game object, the SAN history, the status text, the selection pair and the
session configuration. -/
structure AppState (G : Type) where
  game : G
  moveHistory : List String
  status : String
  selectedSquare : Option String
  validMoves : List String
  difficulty : Nat
  playerColor : PieceColor
  isTwoPlayer : Bool
  background : String
deriving DecidableEq, Repr

/-- App.tsx `onSquareClick(square)` (lines 182-223): gated on game over and,
in single-player mode, on the configured player color owning the move; then
the two-click selection state machine with queen-default promotion.  The
accepted-move branch mirrors `validateMove` followed by replaying the request
on a fresh copy of the current game (`new Chess(game.fen())`), which is the
same deterministic computation, so the copy is built once here. -/
def onSquareClick (r : Rules G) (st : AppState G) (square : String) : AppState G :=
  if r.isGameOver st.game then st
  else if st.isTwoPlayer = false ∧ r.turn st.game ≠ st.playerColor then st
  else
    match st.selectedSquare with
    | none =>
      match r.pieceColorAt st.game square with
      | some c =>
        if (if st.isTwoPlayer then c = r.turn st.game else c = st.playerColor) then
          { st with selectedSquare := some square, validMoves := r.movesFrom st.game square }
        else st
      | none => st
    | some sel =>
      match (r.fromFen (r.fen st.game)).bind
          (fun gameCopy => r.moveReq gameCopy ⟨sel, square, 'q'⟩) with
      | some (san, gameNext) =>
        { st with game := gameNext
                  moveHistory := st.moveHistory ++ [san]
                  status := getStatus r gameNext st.playerColor st.isTwoPlayer
                  selectedSquare := none
                  validMoves := [] }
      | none =>
        match r.pieceColorAt st.game square with
        | some c =>
          if (if st.isTwoPlayer then c = r.turn st.game else c = st.playerColor) then
            { st with selectedSquare := some square, validMoves := r.movesFrom st.game square }
          else { st with selectedSquare := none, validMoves := [] }
        | none => { st with selectedSquare := none, validMoves := [] }

/-- The replay loop of App.tsx `undoMove`: `const newGame = new Chess(); for
(const move of newHistory) newGame.move(move);` — `none` when one of the SAN
strings throws (in the source that exception would escape before any state
setter runs). -/
def replayHistory (r : Rules G) : G → List String → Option G
  | g, [] => some g
  | g, m :: rest =>
    match r.moveStr g m with
    | some (_, gameNext) => replayHistory r gameNext rest
    | none => none

/-- App.tsx `undoMove` (lines 236-251). -/
def undoMove (r : Rules G) (st : AppState G) : AppState G :=
  let undoCount := if st.isTwoPlayer then 1 else 2
  if st.moveHistory.length < undoCount then st
  else
    let newHistory := st.moveHistory.take (st.moveHistory.length - undoCount)
    match replayHistory r r.initial newHistory with
    | some newGame =>
      { st with game := newGame
                moveHistory := newHistory
                status := getStatus r newGame st.playerColor st.isTwoPlayer
                selectedSquare := none
                validMoves := [] }
    | none => st

/-- The `disabled` expression on the Undo button (App.tsx lines 905-911):
`moveHistory.length < (isTwoPlayer ? 1 : 2) || (!isTwoPlayer && game.turn()
!== playerColor)`. -/
def undoDisabled (r : Rules G) (st : AppState G) : Bool :=
  decide (st.moveHistory.length < (if st.isTwoPlayer then 1 else 2)) ||
    (!st.isTwoPlayer && decide (r.turn st.game ≠ st.playerColor))

/-- The user-level undo operation: a disabled button delivers no click, so the
operation is the guard composed with `undoMove`. -/
def undoButtonClick (r : Rules G) (st : AppState G) : AppState G :=
  if undoDisabled r st then st else undoMove r st

/-- Whether one character list is an initial segment of another (the test
behind JS `String.prototype.startsWith`). -/
def isInitialSegment : List Char → List Char → Bool
  | [], _ => true
  | _ :: _, [] => false
  | p :: ps, c :: cs => p == c && isInitialSegment ps cs

/-- JS `s.startsWith(p)`. -/
def jsStartsWith (s p : String) : Bool :=
  isInitialSegment p.data s.data

/-- Splitting a character list at every single space, keeping empty pieces —
JS `s.split(' ')` semantics. -/
def splitOnSpaceAux : List Char → List Char → List (List Char)
  | [], acc => [acc.reverse]
  | c :: rest, acc =>
    if c = ' ' then acc.reverse :: splitOnSpaceAux rest []
    else splitOnSpaceAux rest (c :: acc)

/-- JS `s.split(' ')`. -/
def jsSplitSpace (s : String) : List String :=
  (splitOnSpaceAux s.data []).map (fun cs => ⟨cs⟩)

/-- The parsing decision of the shared bestmove listener (engine.ts lines
36-51 and the App.tsx engine-message handler take the same branch structure):
`none` when the line is not `bestmove`-prefixed (the listener ignores it and
the promise stays pending); `some none` when the promise resolves null (the
move token is missing, empty — JS falsy — or the '(none)' sentinel);
`some (some pair)` when it resolves with `{from: move.substring(0,2), to:
move.substring(2,4)}`. -/
def parseBestmoveLine (msg : String) : Option (Option MoveXY) :=
  if jsStartsWith msg "bestmove" then
    match (jsSplitSpace msg).get? 1 with
    | some move =>
      if move ≠ "" ∧ move ≠ "(none)" then
        some (some ⟨move.take 2, (move.drop 2).take 2⟩)
      else some none
    | none => some none
  else none

/-- The value of the engine's mutable `onMessage` field: the externally
registered base callback, or a `getBestMove` wrapper (engine.ts lines 53-61)
capturing the previous value and its pending request. -/
inductive Handler
  | base
  | wrap (orig : Handler) (req : Nat)
deriving DecidableEq, Repr

/-- Running the current `onMessage` on one inbound line: a wrapper first runs
its captured original, then its own listener (resolving its request on a
`bestmove` line), and on a `bestmove` line restores `onMessage` to its
captured original — assignments run inner first, so the outermost wrapper's
assignment is the field's final value.  Returns the resolution events in
order and that final field value. -/
def runHandler : Handler → String → List (Nat × Option MoveXY) × Handler
  | Handler.base, _ => ([], Handler.base)
  | Handler.wrap orig req, msg =>
    let inner := runHandler orig msg
    match parseBestmoveLine msg with
    | some res => (inner.1 ++ [(req, res)], orig)
    | none => (inner.1, Handler.wrap orig req)

/-- The observable state of one Engine instance (engine.ts): the current
`onMessage` handler, whether the worker is still able to deliver messages
(`terminate()` clears it), the outbound command lines in order, the promise
resolution events in order, and a counter naming the next `getBestMove`
request. -/
structure EngineState where
  handler : Handler
  alive : Bool
  sent : List String
  resolved : List (Nat × Option MoveXY)
  nextReq : Nat
deriving DecidableEq, Repr

/-- The constructor: spawns the worker, registers the forwarding `onmessage`,
and sends 'uci'. -/
def engineInit : EngineState :=
  { handler := Handler.base, alive := true, sent := ["uci"], resolved := [], nextReq := 0 }

/-- `sendMessage`: posts to the worker (the `stockfish` field is never
nulled, so the post happens even after `quit`; a terminated worker simply
never answers). -/
def sendMessage (st : EngineState) (m : String) : EngineState :=
  { st with sent := st.sent ++ [m] }

/-- `getBestMove(fen, skillLevel, depth)` (engine.ts lines 30-63): sends the
three commands, then wraps the current `onMessage` with this call's listener;
the new pending request's id is returned with the state. -/
def getBestMoveStep (st : EngineState) (fen : String) (skillLevel depth : Nat) :
    EngineState × Nat :=
  let st1 := sendMessage (sendMessage (sendMessage st
    ("setoption name Skill Level value " ++ toString skillLevel))
    ("position fen " ++ fen))
    ("go depth " ++ toString depth)
  ({ st1 with handler := Handler.wrap st1.handler st1.nextReq, nextReq := st1.nextReq + 1 },
    st1.nextReq)

/-- One inbound worker line: delivered to the current `onMessage` only while
the worker is not terminated. -/
def deliver (st : EngineState) (msg : String) : EngineState :=
  if st.alive then
    let out := runHandler st.handler msg
    { st with handler := out.2, resolved := st.resolved ++ out.1 }
  else st

/-- A sequence of inbound worker lines. -/
def deliverAll (st : EngineState) (msgs : List String) : EngineState :=
  msgs.foldl deliver st

/-- `quit()` (engine.ts lines 69-72): sends 'quit' and terminates the
worker. -/
def quitStep (st : EngineState) : EngineState :=
  { sendMessage st "quit" with alive := false }

/-- What a caller observes for request `k`: a promise resolves once, with its
first resolution event; `none` when the promise is still pending. -/
def firstResolution (st : EngineState) (k : Nat) : Option (Option MoveXY) :=
  (st.resolved.find? (fun p => p.1 == k)).map Prod.snd

/-- The engine-message handler installed at mount by App.tsx (lines 136-153):
on a `bestmove` line with a present, non-sentinel move token, the move string
is applied to a fresh copy of the *current* game (`new
Chess(gameRef.current.fen())`); on success the game, history and status are
replaced; a throwing move is caught and changes nothing.  `mountColor` and
`mountTwoPlayer` are the values the effect closure captured at mount. -/
def onEngineBestmove (r : Rules G) (mountColor : PieceColor) (mountTwoPlayer : Bool)
    (st : AppState G) (msg : String) : AppState G :=
  if jsStartsWith msg "bestmove" then
    match (jsSplitSpace msg).get? 1 with
    | some move =>
      if move ≠ "" ∧ move ≠ "(none)" then
        match (r.fromFen (r.fen st.game)).bind (fun gameCopy => r.moveStr gameCopy move) with
        | some (san, gameNext) =>
          { st with game := gameNext
                    moveHistory := st.moveHistory ++ [san]
                    status := getStatus r gameNext mountColor mountTwoPlayer }
        | none => st
      else st
    | none => st
  else st

/-- A parsed persisted record (the JSON object saved under the
'chess3d_game_state' key).  Each field is optional: JS reads an absent
property as `undefined`. -/
structure SavedRecord where
  fen : Option String
  moveHistory : Option (List String)
  difficulty : Option Nat
  playerColor : Option PieceColor
  isTwoPlayer : Option Bool
  background : Option String
deriving DecidableEq, Repr

/-- What `localStorage.getItem` followed by `JSON.parse` yields: no stored
value, a stored string on which `JSON.parse` throws, or a parsed record. -/
inductive Stored
  | missing
  | malformedJson (raw : String)
  | record (rec : SavedRecord)
deriving DecidableEq, Repr

/-- JS truthiness of the `level` search parameter (`null` or the empty string
are falsy). -/
def levelFalsy : Option String → Bool
  | none => true
  | some s => s == ""

/-- The restore effect of App.tsx (lines 78-101).  A missing value does
nothing; a `JSON.parse` throw is caught and does nothing; `new
Chess(state.fen)` with an absent fen falls back to chess.js's default (the
initial position) and with an invalid fen throws — caught before any setter
ran.  On success every field is set with the source's `||` fallbacks, and the
persisted difficulty is only taken when no URL level is present and the
persisted value is truthy. -/
def restoreEffect (r : Rules G) (level : Option String) (stored : Stored)
    (st : AppState G) : AppState G :=
  match stored with
  | Stored.missing => st
  | Stored.malformedJson _ => st
  | Stored.record rec =>
    match (match rec.fen with | none => some r.initial | some f => r.fromFen f) with
    | none => st
    | some restoredGame =>
      { st with
          game := restoredGame
          moveHistory := rec.moveHistory.getD []
          playerColor := rec.playerColor.getD PieceColor.w
          isTwoPlayer := rec.isTwoPlayer.getD false
          background := (match rec.background with
            | some b => if b = "" then "city" else b
            | none => "city")
          difficulty := if levelFalsy level = false ∨ rec.difficulty.getD 0 = 0
            then st.difficulty else rec.difficulty.getD 0 }

/-- The leading run of decimal digits of a character list. -/
def leadingDigits : List Char → List Char
  | [] => []
  | c :: cs => if c.isDigit then c :: leadingDigits cs else []

/-- The number a digit list denotes, most significant digit first. -/
def digitsToNat : List Char → Nat → Nat
  | [], acc => acc
  | c :: cs, acc => digitsToNat cs (acc * 10 + (c.toNat - 48))

/-- `parseInt(s, 10)` restricted to what the URL-level effect needs: the
value of the leading run of decimal digits, `none` standing for NaN. -/
def parseIntLeading (s : String) : Option Nat :=
  match leadingDigits s.data with
  | [] => none
  | ds => some (digitsToNat ds 0)

/-- The URL difficulty effect of App.tsx (lines 55-62): when the `level`
search parameter is truthy and parses to an integer in 1..7, set the
difficulty to it. -/
def urlLevelEffect (level : Option String) (st : AppState G) : AppState G :=
  match level with
  | none => st
  | some s =>
    if s = "" then st
    else
      match parseIntLeading s with
      | some levelNum =>
        if 1 ≤ levelNum ∧ levelNum ≤ 7 then { st with difficulty := levelNum } else st
      | none => st

/-- The mount sequence: the URL-level effect is declared before the restore
effect, so on the first render it runs first and the restore effect then
skips the persisted difficulty exactly when a URL level string is present. -/
def mountInit (r : Rules G) (level : Option String) (stored : Stored)
    (st : AppState G) : AppState G :=
  restoreEffect r level stored (urlLevelEffect level st)

/-- The fresh state the app starts from (App.tsx useState initializers). -/
def freshState : AppState TGame :=
  { game := TGame.pos0
    moveHistory := []
    status := "Your turn (White)"
    selectedSquare := none
    validMoves := []
    difficulty := 1
    playerColor := PieceColor.w
    isTwoPlayer := false
    background := "city" }

/-- C3: for every position, `statusText` (= `getStatus`) returns one of the
six message forms — the checkmate text naming the winner, "Draw!", "Check!",
the two-player side-to-move text, the single-player "Your turn (Color)" text
or the thinking text — chosen with priority checkmate > draw > check > the
turn-based messages; in particular a position that is simultaneously
checkmate and a draw condition yields the checkmate text, and a drawn
position never yields "Check!". -/
theorem getStatus_priority (r : Rules G) (g : G) (pc : PieceColor) (tp : Bool) :
    (getStatus r g pc tp =
        "Checkmate! " ++ (if r.turn g = PieceColor.w then "Black" else "White") ++ " wins." ∨
      getStatus r g pc tp = "Draw!" ∨
      getStatus r g pc tp = "Check!" ∨
      getStatus r g pc tp =
        (if r.turn g = PieceColor.w then "White" else "Black") ++ "\'s turn" ∨
      getStatus r g pc tp =
        "Your turn (" ++ (if pc = PieceColor.w then "White" else "Black") ++ ")" ∨
      getStatus r g pc tp = "Computer is thinking...") ∧
    (r.isCheckmate g = true →
      getStatus r g pc tp =
        "Checkmate! " ++ (if r.turn g = PieceColor.w then "Black" else "White") ++ " wins.") ∧
    (r.isCheckmate g = false → r.isDraw g = true → getStatus r g pc tp = "Draw!") ∧
    (r.isCheckmate g = false → r.isDraw g = false → r.isCheck g = true →
      getStatus r g pc tp = "Check!") ∧
    (r.isDraw g = true → getStatus r g pc tp ≠ "Check!") := by
  unfold getStatus
  cases hcm : r.isCheckmate g <;> cases hd : r.isDraw g <;> cases hc : r.isCheck g <;>
    cases tp <;> by_cases htw : r.turn g = PieceColor.w <;> by_cases htp : r.turn g = pc <;>
    simp_all

/-- A position that is at once checkmate, draw and check (the `overlap`
instance) yields the checkmate text, exercising the precedence clause of
`getStatus_priority`. -/
theorem getStatus_overlap_example :
    getStatus overlap () PieceColor.w false = "Checkmate! White wins." := by
  have h := (getStatus_priority overlap () PieceColor.w false).2.1 rfl
  simpa using h

/-- C10: `validateMove(game, move)` never mutates its input game — legality
is checked on a copy, so the game object after the call is exactly the input
(same FEN, same side to move, same legal destination sets), and in
particular a rejected move returns null with the position unchanged. -/
theorem validateMove_preserves_game (r : Rules G) (g : G) (mv : MoveReq) :
    (validateMove r g mv).2 = g ∧
    r.fen (validateMove r g mv).2 = r.fen g ∧
    r.turn (validateMove r g mv).2 = r.turn g ∧
    (∀ sq, r.movesFrom (validateMove r g mv).2 sq = r.movesFrom g sq) ∧
    ((validateMove r g mv).1 = none → (validateMove r g mv).2 = g) := by
  have h2 : (validateMove r g mv).2 = g := by
    unfold validateMove
    split <;> rfl
  exact ⟨h2, by rw [h2], by rw [h2], fun sq => by rw [h2], fun _ => h2⟩

/-- C5: a square click is a complete no-op — the whole app state, in
particular Position, History, the selected square and the legal-destination
set, is unchanged — when the game is over, or when in single-player mode the
side to move is not the configured player color. -/
theorem onSquareClick_gated_noop (r : Rules G) (st : AppState G) (square : String)
    (h : r.isGameOver st.game = true ∨
      (st.isTwoPlayer = false ∧ r.turn st.game ≠ st.playerColor)) :
    onSquareClick r st square = st := by
  unfold onSquareClick
  rcases h with h | h
  · rw [if_pos h]
  · by_cases hg : r.isGameOver st.game = true
    · rw [if_pos hg]
    · rw [if_neg hg, if_pos h]

/-- A state where the AI (black) is to move in single-player mode as white. -/
def stOpponentTurn : AppState TGame := { freshState with game := TGame.pos1 }

/-- Witness for C5 at a concrete input: with the position after 1.e4, black
to move, single-player as white, clicking e7 changes nothing. -/
theorem onSquareClick_gated_noop_witness :
    onSquareClick toy stOpponentTurn "e7" = stOpponentTurn :=
  onSquareClick_gated_noop toy stOpponentTurn "e7" (Or.inr ⟨rfl, by decide⟩)

/-- C4 (amended): the shared bestmove listener resolves with a {from, to}
pair exactly for a line prefixed with the `bestmove` token whose second
space-separated token is present, non-empty and not the '(none)' sentinel —
the pair being the token's characters 0-2 and 2-4 with no four-character
validation; a missing or empty token and the sentinel resolve the promise
with null; every other line leaves the pending promise unresolved. -/
theorem bestmove_parsing (msg : String) :
    (parseBestmoveLine msg = none ↔ jsStartsWith msg "bestmove" = false) ∧
    (∀ move, jsStartsWith msg "bestmove" = true → (jsSplitSpace msg).get? 1 = some move →
      move ≠ "" → move ≠ "(none)" →
      parseBestmoveLine msg = some (some ⟨move.take 2, (move.drop 2).take 2⟩)) ∧
    (jsStartsWith msg "bestmove" = true → (jsSplitSpace msg).get? 1 = some "(none)" →
      parseBestmoveLine msg = some none) ∧
    (jsStartsWith msg "bestmove" = true → (jsSplitSpace msg).get? 1 = some "" →
      parseBestmoveLine msg = some none) ∧
    (jsStartsWith msg "bestmove" = true → (jsSplitSpace msg).get? 1 = none →
      parseBestmoveLine msg = some none) := by
  unfold parseBestmoveLine
  cases hs : jsStartsWith msg "bestmove"
  · simp
  · cases hget : (jsSplitSpace msg).get? 1 with
    | none => simp
    | some move =>
      by_cases he : move = ""
      · simp [he]
      · by_cases hn : move = "(none)"
        · simp [hn]
        · simp [he, hn]

/-- Counterexample for C4 as frozen: the line "bestmove xy" carries a
two-character move token — not a four-character square pair, so unparseable
per the claim — yet the listener resolves with the pair {from := "xy",
to := ""} instead of null. -/
theorem bestmove_short_token_counterexample :
    (jsStartsWith "bestmove xy" "bestmove" = true) ∧
    parseBestmoveLine "bestmove xy" = some (some ⟨"xy", ""⟩) ∧
    parseBestmoveLine "bestmove xy" ≠ some none := by decide

/-- C6: the user-level undo operation removes the last move in two-player
mode and the last two in single-player mode, reconstructing the position by
replaying the remaining history in order from the initial position; it is a
no-op whenever the Undo button's guard holds — the history is shorter than
the required undo count, or in single-player mode it is not the human's
turn. -/
theorem undo_truncates_and_replays (r : Rules G) (st : AppState G) :
    (undoDisabled r st = true → undoButtonClick r st = st) ∧
    (undoDisabled r st = false →
      ∀ g2, replayHistory r r.initial
          (st.moveHistory.take
            (st.moveHistory.length - (if st.isTwoPlayer then 1 else 2))) = some g2 →
        undoButtonClick r st =
          { st with game := g2
                    moveHistory := st.moveHistory.take
                      (st.moveHistory.length - (if st.isTwoPlayer then 1 else 2))
                    status := getStatus r g2 st.playerColor st.isTwoPlayer
                    selectedSquare := none
                    validMoves := [] }) := by
  constructor
  · intro h
    unfold undoButtonClick
    rw [if_pos h]
  · intro h g2 hrep
    have hlen : ¬ st.moveHistory.length < (if st.isTwoPlayer then 1 else 2) := by
      unfold undoDisabled at h
      simp only [Bool.or_eq_false_iff, decide_eq_false_iff_not] at h
      exact h.1
    unfold undoButtonClick
    rw [if_neg (by simp [h])]
    unfold undoMove
    simp only []
    rw [if_neg hlen, hrep]

/-- The state after 1.e4 e5 2.Nf3 with the human playing black in
single-player mode (the AI has just answered 2.Nf3, so it is the human's
turn). -/
def stUndoExample : AppState TGame :=
  { freshState with game := TGame.pos3
                    moveHistory := ["e4", "e5", "Nf3"]
                    playerColor := PieceColor.b }

/-- Witness for C6 at the spec's concrete example: history ["e4","e5","Nf3"],
single-player undo removes two moves, leaving history ["e4"] and the position
after 1.e4 alone. -/
theorem undo_truncates_witness :
    (undoButtonClick toy stUndoExample).moveHistory = ["e4"] ∧
    (undoButtonClick toy stUndoExample).game = TGame.pos1 := by
  have h := (undo_truncates_and_replays toy stUndoExample).2 (by decide) TGame.pos1 (by decide)
  rw [h]
  exact ⟨by decide, by decide⟩

/-- C7: restoring with a missing persisted value, a value on which JSON
parsing throws, or a record whose position text is an invalid FEN changes
nothing — the exception is caught before any setter runs, so the caller
keeps the fresh game it started from. -/
theorem restore_malformed_noop (r : Rules G) (level : Option String) (stored : Stored)
    (st : AppState G)
    (h : stored = Stored.missing ∨ (∃ raw, stored = Stored.malformedJson raw) ∨
      ∃ rec f, stored = Stored.record rec ∧ rec.fen = some f ∧ r.fromFen f = none) :
    restoreEffect r level stored st = st := by
  rcases h with h | ⟨raw, h⟩ | ⟨rec, f, h, hf, hv⟩
  · subst h; rfl
  · subst h; rfl
  · subst h; simp [restoreEffect, hf, hv]

/-- A persisted record whose position text is not a FEN. -/
def badRecord : SavedRecord :=
  { fen := some "not a fen"
    moveHistory := some ["e4"]
    difficulty := some 3
    playerColor := some PieceColor.b
    isTwoPlayer := some true
    background := some "forest" }

/-- Witness for C7 at the spec's concrete example: a persisted record with an
invalid FEN leaves the fresh game at the standard initial position with empty
history and default configuration. -/
theorem restore_malformed_noop_witness :
    restoreEffect toy none (Stored.record badRecord) freshState = freshState :=
  restore_malformed_noop toy none (Stored.record badRecord) freshState
    (Or.inr (Or.inr ⟨badRecord, "not a fen", rfl, rfl, by decide⟩))

/-- C8: with a launch-parameter difficulty override in 1..7 supplied, the
configuration after mount takes the override for difficulty while game,
history, player color, two-player flag and background all come from the
persisted record; with no launch parameter, the persisted (truthy)
difficulty is used. -/
theorem url_level_override (r : Rules G) :
    (∀ (st : AppState G) (s : String) (n : Nat) (rec : SavedRecord) (f : String) (g2 : G),
      s ≠ "" → parseIntLeading s = some n → 1 ≤ n → n ≤ 7 →
      rec.fen = some f → r.fromFen f = some g2 →
      mountInit r (some s) (Stored.record rec) st =
        { st with game := g2
                  moveHistory := rec.moveHistory.getD []
                  playerColor := rec.playerColor.getD PieceColor.w
                  isTwoPlayer := rec.isTwoPlayer.getD false
                  background := (match rec.background with
                    | some b => if b = "" then "city" else b
                    | none => "city")
                  difficulty := n }) ∧
    (∀ (st : AppState G) (rec : SavedRecord) (f : String) (g2 : G) (d : Nat),
      rec.fen = some f → r.fromFen f = some g2 → rec.difficulty = some d → d ≠ 0 →
      (mountInit r none (Stored.record rec) st).difficulty = d) := by
  constructor
  · intro st s n rec f g2 hs hp h1 h7 hf hg
    have hurl : urlLevelEffect (some s) st = { st with difficulty := n } := by
      simp [urlLevelEffect, hs, hp, h1, h7]
    have hfalsy : levelFalsy (some s) = false := by
      simp [levelFalsy, hs]
    unfold mountInit
    rw [hurl]
    simp [restoreEffect, hf, hg, hfalsy]
  · intro st rec f g2 d hf hg hd hd0
    have hurl : urlLevelEffect none st = st := by
      simp [urlLevelEffect]
    unfold mountInit
    rw [hurl]
    simp [restoreEffect, hf, hg, levelFalsy, hd, hd0]

/-- The adapter state after two back-to-back `getBestMove` calls (requests 0
and 1) on one Engine instance: the second call wraps the first call's
still-installed wrapper. -/
def enAfterTwoCalls : EngineState :=
  (getBestMoveStep (getBestMoveStep engineInit (tFen TGame.pos1) 3 3).1
    (tFen TGame.pos2) 3 3).1

/-- The same adapter after one `bestmove` line then arrives. -/
def enAfterReply : EngineState := deliver enAfterTwoCalls "bestmove e7e5"

/-- C1 (the code contradicts it): with two `getBestMove` calls pending on the
same adapter, the single `bestmove` line that arrives next runs both nested
wrapper listeners, so the FIRST call's promise resolves with the move — and
with the same move as the second's — rather than never resolving; moreover
the handler field ends as the first call's stale wrapper instead of the base
callback. -/
theorem engine_first_promise_resolves_with_move :
    firstResolution enAfterReply 0 = some (some ⟨"e7", "e5"⟩) ∧
    firstResolution enAfterReply 1 = some (some ⟨"e7", "e5"⟩) ∧
    enAfterReply.handler = Handler.wrap Handler.base 0 := by decide

/-- The app state after the game has moved on to the position after 1.e4 e5
(the pending engine request was issued earlier, at the initial position). -/
def stStale : AppState TGame :=
  { freshState with game := TGame.pos2
                    moveHistory := ["e4", "e5"]
                    playerColor := PieceColor.b
                    isTwoPlayer := true }

/-- C2 (the code contradicts it): the engine-message handler applies a
best-move reply to whatever the CURRENT position is, with no comparison
against the request's position snapshot.  Here the request was issued at the
initial position (snapshot `tFen pos0`), the game has moved on to the
position after 1.e4 e5 (a different FEN), and the stale reply
"bestmove g1f3" — a legal move in the current position — is applied: the
Position advances and "Nf3" is appended to the History, instead of the reply
being discarded. -/
theorem stale_reply_applied :
    tFen TGame.pos0 ≠ tFen stStale.game ∧
    (onEngineBestmove toy PieceColor.w false stStale "bestmove g1f3").game = TGame.pos3 ∧
    (onEngineBestmove toy PieceColor.w false stStale "bestmove g1f3").moveHistory
      = ["e4", "e5", "Nf3"] := by decide

/-- A terminated engine delivers no further messages. -/
theorem deliver_dead (st : EngineState) (msg : String) (h : st.alive = false) :
    deliver st msg = st := by
  simp [deliver, h]

/-- A terminated engine delivers no further message sequence. -/
theorem deliverAll_dead (st : EngineState) (msgs : List String) (h : st.alive = false) :
    deliverAll st msgs = st := by
  induction msgs with
  | nil => rfl
  | cons m rest ih =>
    unfold deliverAll at ih ⊢
    rw [List.foldl_cons, deliver_dead st m h]
    exact ih

/-- The adapter state at shutdown with request 0 still pending: one
`getBestMove` call, then `quit()`. -/
def enPendingQuit : EngineState :=
  quitStep (getBestMoveStep engineInit (tFen TGame.pos0) 3 3).1

/-- C9 (the code contradicts it in part): `quit()` does send the termination
command and terminate the worker, but nothing ever resolves the pending
`getBestMove` promise — it is unresolved at shutdown and stays unresolved
after any further sequence of inbound lines (none can be delivered by the
terminated worker), rather than resolving to "no move". -/
theorem quit_leaves_promise_pending :
    enPendingQuit.sent.getLast? = some "quit" ∧
    enPendingQuit.alive = false ∧
    firstResolution enPendingQuit 0 = none ∧
    ∀ msgs : List String, firstResolution (deliverAll enPendingQuit msgs) 0 = none := by
  refine ⟨by decide, by decide, by decide, fun msgs => ?_⟩
  rw [deliverAll_dead enPendingQuit msgs (by decide)]
  decide

/-- A well-formed persisted record (position after 1.e4, history ["e4"],
difficulty 3, playing black). -/
def recGood : SavedRecord :=
  { fen := some (tFen TGame.pos1)
    moveHistory := some ["e4"]
    difficulty := some 3
    playerColor := some PieceColor.b
    isTwoPlayer := some false
    background := some "forest" }

/-- Witness for C8 at concrete inputs: launch parameter "5" overrides the
persisted difficulty 3 while player color (black) still comes from the
record; with no launch parameter the persisted difficulty 3 is used. -/
theorem url_level_override_witness :
    (mountInit toy (some "5") (Stored.record recGood) freshState).difficulty = 5 ∧
    (mountInit toy (some "5") (Stored.record recGood) freshState).playerColor = PieceColor.b ∧
    (mountInit toy none (Stored.record recGood) freshState).difficulty = 3 := by
  have h1 := (url_level_override toy).1 freshState "5" 5 recGood (tFen TGame.pos1) TGame.pos1
    (by decide) (by decide) (by decide) (by decide) rfl (by decide)
  have h2 := (url_level_override toy).2 freshState recGood (tFen TGame.pos1) TGame.pos1 3
    rfl (by decide) rfl (by decide)
  rw [h1]
  exact ⟨rfl, rfl, h2⟩
